import Mathlib

/-!
Shallow embedding of the resume-intake and onboarding-progress core of the
Fetch candidate portal (frontend/src/components/ResumeUpload.jsx,
frontend/src/components/Dashboard.jsx and the unnamed ResumeUpload variant),
together with proofs settling the specification claims about it.
-/

namespace Fetch

/-- A candidate file as seen by the client: the fields of the platform `File`
object that the code reads (`name` and byte `size`). -/
structure CandidateFile where
  name : String
  size : Nat
deriving Repr, DecidableEq

/-- Result of `validateFile`: `{ valid: true }` or `{ valid: false, error }`. -/
inductive ValidationResult where
  | valid : ValidationResult
  | invalid (error : String) : ValidationResult
deriving Repr, DecidableEq

/-- JS `String.prototype.toLowerCase()` on the ASCII file names the code
handles: lower-cases each character. -/
def jsToLower (s : String) : String :=
  String.mk (s.toList.map Char.toLower)

/-- Index of the last `'.'` in a character list (counting from the head),
or `none` when there is no dot. -/
def lastDotIdxAux : List Char → Option Nat
  | [] => none
  | c :: cs =>
    match lastDotIdxAux cs with
    | some i => some (i + 1)
    | none => if c = '.' then some 0 else none

/-- JS `name.lastIndexOf('.')`: the greatest index holding `'.'`, or `-1`. -/
def jsLastIndexOfDot (s : String) : Int :=
  match lastDotIdxAux s.toList with
  | some i => (i : Int)
  | none => -1

/-- JS `String.prototype.substr(start)`: from `start` to the end of the
string; a negative `start` counts back from the end, clamped at 0. -/
def jsSubstr (s : String) (start : Int) : String :=
  let st : Nat := if start < 0 then s.length - min s.length start.natAbs else start.toNat
  String.mk (s.toList.drop st)

/-- `allowedTypes` from `validateFile`. -/
def allowedTypes : List String := [".pdf", ".doc", ".docx"]

/-- `selectedFile.name.toLowerCase().substr(selectedFile.name.lastIndexOf('.'))`. -/
def fileExtension (name : String) : String :=
  jsSubstr (jsToLower name) (jsLastIndexOfDot name)

/-- `validateFile` from ResumeUpload: no file, then extension, then size. -/
def validateFile (selectedFile : Option CandidateFile) : ValidationResult :=
  match selectedFile with
  | none => .invalid "No file selected"
  | some f =>
    if fileExtension f.name ∈ allowedTypes then
      if f.size > 10 * 1024 * 1024 then
        .invalid "File size must be less than 10MB"
      else
        .valid
    else
      .invalid "Please upload a PDF, DOC, or DOCX file"

/-- The characters strictly after the last `'.'` of a character list
(everything, when there is no dot at all, falls through to `[]`). -/
def afterLastDot : List Char → List Char
  | [] => []
  | c :: cs =>
    if '.' ∈ cs then afterLastDot cs
    else if c = '.' then cs
    else afterLastDot cs

/-- Spec-side reading of the extension rule: the filename contains a `'.'`,
and a dot followed by the lower-cased substring after the last `'.'` is one
of the allowed extensions. -/
def SpecExtensionAllowed (name : String) : Prop :=
  '.' ∈ name.toList ∧
    String.mk ('.' :: (afterLastDot name.toList).map Char.toLower) ∈ allowedTypes

instance (name : String) : Decidable (SpecExtensionAllowed name) := by
  unfold SpecExtensionAllowed; infer_instance

/-- The error object a rejected transport promise carries: the fields the
catch blocks read (`err.response?.data?.detail` and `err.message`); `none`
stands for an absent (undefined) field. -/
structure JsError where
  responseDetail : Option String
  message : Option String
deriving Repr, DecidableEq

/-- JS `x || d` on an optional string: an absent or empty string is falsy. -/
def jsOrStr (v : Option String) (d : String) : String :=
  match v with
  | some s => if s = "" then d else s
  | none => d

/-- `err.response?.data?.detail || err.message || 'Something went wrong'`. -/
def errorReason (err : JsError) : String :=
  jsOrStr err.responseDetail (jsOrStr err.message "Something went wrong")

/-- The candidate projection returned by the upload endpoint, as the
success screen reads it. -/
structure Candidate where
  name : String
  email : Option String
  location : Option String
  skills : List String
  has_embeddings : Bool
deriving Repr, DecidableEq

/-- `response.data` of a successful `resumeAPI.upload`. -/
structure UploadData where
  candidate : Candidate
deriving Repr, DecidableEq

/-- State of the standalone ResumeUpload component (the unnamed variant with
a result screen): `useState` cells `file`, `uploading`, `result`, `error`. -/
structure UploadState where
  file : Option CandidateFile
  uploading : Bool
  result : Option UploadData
  error : Option String
deriving Repr, DecidableEq

/-- `handleFileSelect(selectedFile)`: validate; on failure only set the
error; on success stage the file and clear error and result. -/
def handleFileSelect (s : UploadState) (selectedFile : Option CandidateFile) :
    UploadState :=
  match validateFile selectedFile with
  | .invalid e => { s with error := some e }
  | .valid => { s with file := selectedFile, error := none, result := none }

/-- The synchronous prefix of `handleUpload()`, up to issuing the transport
request: with no file staged it sets an error and stops; otherwise it sets
`uploading` and clears the error. The boolean reports whether the transport
(`resumeAPI.upload`) is invoked. -/
def handleUploadStart (s : UploadState) : UploadState × Bool :=
  match s.file with
  | none => ({ s with error := some "Please select a file first" }, false)
  | some _ => ({ s with uploading := true, error := none }, true)

/-- `disabled={!file || uploading}` on the Upload Resume button. -/
def uploadButtonDisabled (s : UploadState) : Bool :=
  s.file.isNone || s.uploading

/-- A click of the Upload Resume button: a disabled button fires no
`handleUpload`; otherwise `handleUpload` runs up to the transport call. -/
def uploadClick (s : UploadState) : UploadState × Bool :=
  if uploadButtonDisabled s then (s, false) else handleUploadStart s

/-- Two clicks in rapid succession (the first request still unresolved);
returns the final state and how many transport invocations happened. -/
def clickTwice (s : UploadState) : UploadState × Nat :=
  let r1 := uploadClick s
  let r2 := uploadClick r1.1
  (r2.1, (if r1.2 then 1 else 0) + (if r2.2 then 1 else 0))

/-- Resolution of the pending `resumeAPI.upload` promise inside
`handleUpload`: on success store the result and clear the file; on failure
derive the error reason; either way `finally` clears `uploading`. -/
def handleUploadResolve (s : UploadState) (outcome : Except JsError UploadData) :
    UploadState :=
  match outcome with
  | .ok data => { s with result := some data, file := none, uploading := false }
  | .error e => { s with error := some (errorReason e), uploading := false }

/-- `statusToStepMap` from Dashboard's `fetchUserData` as a lookup:
`none` for a key absent from the object literal. -/
def statusToStepMap (status : String) : Option Nat :=
  if status = "registered" then some 0
  else if status = "uploaded_resume" then some 1
  else if status = "scheduled_intake" then some 2
  else if status = "completed_assessment" then some 3
  else if status = "uploaded_results" then some 4
  else if status = "completed_onboarding" then some 5
  else none

/-- JS `x || d` on an optional number: absent lookups and `0` are falsy. -/
def jsOrNat (v : Option Nat) (d : Nat) : Nat :=
  match v with
  | some n => if n = 0 then d else n
  | none => d

/-- `statusToStepMap[response.data.status] || 0`; the user's status is
optional, `none` standing for a null/undefined status. -/
def currentStepIndex (status : Option String) : Nat :=
  jsOrNat (status.bind statusToStepMap) 0

/-- JS falsiness of an optional string (`!response.data.status`). -/
def jsStrFalsy : Option String → Bool
  | none => true
  | some s => s = ""

/-- Dashboard component state and the observable effects its handlers
produce: `useState` cells plus the console log and transport call counters. -/
structure DashboardState where
  showResumeUpload : Bool
  currentStep : Nat
  error : Option String
  consoleLog : List String
  updateStatusCalls : Nat
  fetchUserCalls : Nat
deriving Repr, DecidableEq

/-- `fetchUserData()`: issue `getCurrentUser`; on success recompute the
step from the status and, when the status is falsy or `'registered'`, show
the resume upload; on failure set the load error. -/
def fetchUserData (d : DashboardState) (outcome : Except JsError (Option String)) :
    DashboardState :=
  let d1 := { d with fetchUserCalls := d.fetchUserCalls + 1 }
  match outcome with
  | .ok status =>
    let d2 := { d1 with currentStep := currentStepIndex status }
    if jsStrFalsy status || status == some "registered" then
      { d2 with showResumeUpload := true }
    else
      d2
  | .error _ => { d1 with error := some "Failed to load user data" }

/-- Dashboard state before the initial `fetchUserData`. -/
def initialDashboard : DashboardState :=
  { showResumeUpload := false, currentStep := 0, error := none,
    consoleLog := [], updateStatusCalls := 0, fetchUserCalls := 0 }

/-- The display state a fresh Dashboard resolves for a given user status. -/
def resolveDisplay (status : Option String) : DashboardState :=
  fetchUserData initialDashboard (.ok status)

/-- `handleResumeUploadSuccess()`: request the `uploaded_resume` transition;
on success hide the upload panel and refetch the user; on failure only log
`'Failed to update status:'` to the console. -/
def handleResumeUploadSuccess (d : DashboardState)
    (updateOutcome : Except JsError Unit)
    (refetch : Except JsError (Option String)) : DashboardState :=
  let d1 := { d with updateStatusCalls := d.updateStatusCalls + 1 }
  match updateOutcome with
  | .ok _ => fetchUserData { d1 with showResumeUpload := false } refetch
  | .error _ => { d1 with consoleLog := d1.consoleLog ++ ["Failed to update status:"] }

/-- State of the ResumeUpload variant embedded in the Dashboard (no result
screen; success is handed to `onSuccess`). -/
structure ResumeUploadState where
  file : Option CandidateFile
  uploading : Bool
  error : Option String
deriving Repr, DecidableEq

/-- The Dashboard page together with its embedded ResumeUpload. -/
structure AppState where
  upload : ResumeUploadState
  dash : DashboardState
deriving Repr, DecidableEq

/-- Resolution of `resumeAPI.upload` in the Dashboard-embedded variant: on
success clear the file, stop uploading and run `onSuccess`
(= `handleResumeUploadSuccess`, fed the outcomes of its own two requests);
on failure set the derived error reason and stop uploading. -/
def handleUploadResolveApp (a : AppState) (outcome : Except JsError UploadData)
    (updateOutcome : Except JsError Unit)
    (refetch : Except JsError (Option String)) : AppState :=
  match outcome with
  | .ok _ =>
    { upload := { a.upload with file := none, uploading := false },
      dash := handleResumeUploadSuccess a.dash updateOutcome refetch }
  | .error e =>
    { a with upload := { a.upload with error := some (errorReason e), uploading := false } }

/-- One entry of the `onboardingSteps` array. -/
structure OnboardingStep where
  label : String
  status : String
  description : String
deriving Repr, DecidableEq

/-- The `onboardingSteps` array of the Dashboard. -/
def onboardingSteps : List OnboardingStep :=
  [ { label := "Create profile, upload resume", status := "uploaded_resume",
      description := "" },
    { label := "Schedule intake call", status := "scheduled_intake",
      description := "This is a 30-45 minute call to discuss your search and help us connect you with roles of interest. Just bring yourself!" },
    { label := "Complete Clifton Strengths assessment", status := "completed_assessment",
      description := "A comprehensive strengths assessment tool to help understand your culture and personality. A prepaid link has been sent to your email. Takes about 30-45 minutes." },
    { label := "Upload Clifton Strengths results", status := "uploaded_results",
      description := "Upload your completed Clifton Strengths Assessment results so we can start matching you with opportunities!" },
    { label := "Schedule follow-up call", status := "completed_onboarding",
      description := "" } ]

/-- A step-local call-to-action rendered inside a `StepContent`. -/
inductive StepAction where
  | link (label href : String)
  | action (label : String)
deriving Repr, DecidableEq

/-- The conditional action blocks inside the step renderer: an action is
produced for step `index` only when `index === currentStep` and `index` is
1, 2, 3 or 4, with the hardcoded labels and link targets. -/
def stepContentAction (currentStep index : Nat) : Option StepAction :=
  if index = currentStep ∧ index = 1 then
    some (StepAction.link "Schedule Call" "https://calendly.com/your-link")
  else if index = currentStep ∧ index = 2 then
    some (StepAction.link "Take Assessment" "https://www.gallup.com/cliftonstrengths")
  else if index = currentStep ∧ index = 3 then
    some (StepAction.action "Upload Results")
  else if index = currentStep ∧ index = 4 then
    some (StepAction.link "Schedule Follow-up" "https://calendly.com/your-link")
  else
    none

/-- All step-local actions the stepper renders for a given current step
(the stepper maps over `onboardingSteps`, indices 0 through 4). -/
def renderedStepActions (currentStep : Nat) : List StepAction :=
  (List.range onboardingSteps.length).filterMap (stepContentAction currentStep)

/-- `user?.status === 'completed_onboarding'`. -/
def isOnboardingComplete (status : Option String) : Bool :=
  status == some "completed_onboarding"

/-- The step-local actions actually visible on a fresh Dashboard for a
status: the stepper renders only when onboarding is not complete and the
resume-upload panel is not shown. -/
def visibleStepActions (status : Option String) : List StepAction :=
  let d := resolveDisplay status
  if isOnboardingComplete status || d.showResumeUpload then []
  else renderedStepActions d.currentStep

/-- A concrete valid candidate file, for witnesses. -/
def sampleFile : CandidateFile := { name := "resume.pdf", size := 100 }

/-- A concrete invalid (wrong-extension) candidate file, for witnesses. -/
def sampleTxtFile : CandidateFile := { name := "resume.txt", size := 100 }

/-- Upload component state with a staged file and a request in flight. -/
def stagedUploadingState : UploadState :=
  { file := some sampleFile, uploading := true, result := none, error := none }

/-- Upload component state with a staged file and no request in flight. -/
def stagedIdleState : UploadState :=
  { file := some sampleFile, uploading := false, result := none, error := none }

/-- Upload component state with nothing staged. -/
def emptyIdleState : UploadState :=
  { file := none, uploading := false, result := none, error := none }

/-- A transport error with an empty structured detail and a message. -/
def sampleError : JsError := { responseDetail := some "", message := some "net down" }

/-- A minimal server candidate projection. -/
def sampleData : UploadData :=
  { candidate :=
      { name := "A", email := none, location := none, skills := [],
        has_embeddings := false } }

/-- Dashboard page with its embedded uploader mid-upload. -/
def sampleApp : AppState :=
  { upload := { file := some sampleFile, uploading := true, error := none },
    dash := initialDashboard }

/-- `lastDotIdxAux` finds no dot exactly when the list has none. -/
theorem lastDotIdxAux_eq_none_iff (l : List Char) :
    lastDotIdxAux l = none ↔ '.' ∉ l := by
  induction l with
  | nil => simp [lastDotIdxAux]
  | cons c cs ih =>
    cases h : lastDotIdxAux cs with
    | some i =>
      have hmem : '.' ∈ cs := by
        by_contra hn
        rw [ih.mpr hn] at h
        exact Option.noConfusion h
      simp [lastDotIdxAux, h, hmem, List.mem_cons]
    | none =>
      have hnot : '.' ∉ cs := ih.mp h
      by_cases hc : c = '.'
      · subst hc
        simp [lastDotIdxAux, h, List.mem_cons]
      · simp [lastDotIdxAux, h, hc, hnot, List.mem_cons, Ne.symm hc]

/-- Dropping up to the last-dot index exposes the dot followed by the
suffix after the last dot. -/
theorem drop_lastDotIdxAux (l : List Char) (i : Nat)
    (h : lastDotIdxAux l = some i) :
    l.drop i = '.' :: afterLastDot l := by
  induction l generalizing i with
  | nil => simp [lastDotIdxAux] at h
  | cons c cs ih =>
    cases hcs : lastDotIdxAux cs with
    | some j =>
      have hi : i = j + 1 := by
        simp [lastDotIdxAux, hcs] at h
        omega
      subst hi
      have hmem : '.' ∈ cs := by
        by_contra hn
        rw [(lastDotIdxAux_eq_none_iff cs).mpr hn] at hcs
        exact Option.noConfusion hcs
      rw [List.drop_succ_cons, ih j hcs]
      simp [afterLastDot, hmem]
    | none =>
      have hnot : '.' ∉ cs := (lastDotIdxAux_eq_none_iff cs).mp hcs
      by_cases hc : c = '.'
      · have hi : i = 0 := by
          simp [lastDotIdxAux, hcs, hc] at h
          omega
        subst hi hc
        simp [afterLastDot, hnot]
      · simp [lastDotIdxAux, hcs, hc] at h

/-- `substr` at a nonnegative index is a plain drop. -/
theorem jsSubstr_ofNat (s : String) (i : Nat) :
    jsSubstr s (i : Int) = String.mk (s.toList.drop i) := by
  have hn : ¬ ((i : Int) < 0) := by omega
  simp [jsSubstr, hn]

/-- For a name containing a dot, the code's extension is the dot plus the
lower-cased suffix after the last dot. -/
theorem fileExtension_of_dot (name : String) (h : '.' ∈ name.toList) :
    fileExtension name =
      String.mk ('.' :: (afterLastDot name.toList).map Char.toLower) := by
  obtain ⟨i, hi⟩ : ∃ i, lastDotIdxAux name.toList = some i := by
    cases hl : lastDotIdxAux name.toList with
    | none => exact absurd ((lastDotIdxAux_eq_none_iff _).mp hl) (not_not_intro h)
    | some i => exact ⟨i, rfl⟩
  have hdrop := drop_lastDotIdxAux name.toList i hi
  have htl : (jsToLower name).toList = name.toList.map Char.toLower := rfl
  rw [fileExtension, jsLastIndexOfDot, hi, jsSubstr_ofNat, htl,
    ← List.map_drop, hdrop]
  simp [Char.toLower]

/-- `substr(-1)` keeps at most the last character. -/
theorem jsSubstr_neg_one_length (s : String) : (jsSubstr s (-1)).length ≤ 1 := by
  have h1 : jsSubstr s (-1) = String.mk (s.toList.drop (s.length - min s.length 1)) := by
    simp [jsSubstr]
  have h2 : (String.mk (s.toList.drop (s.length - min s.length 1))).length
      = (s.toList.drop (s.length - min s.length 1)).length := rfl
  have h3 : s.toList.length = s.length := rfl
  have h4 : min s.length 1 ≤ 1 := Nat.min_le_right s.length 1
  rw [h1, h2, List.length_drop, h3]
  omega

/-- Without a dot the code's extension has length at most one. -/
theorem fileExtension_short_of_no_dot (name : String) (h : '.' ∉ name.toList) :
    (fileExtension name).length ≤ 1 := by
  have hl : lastDotIdxAux name.toList = none :=
    (lastDotIdxAux_eq_none_iff _).mpr h
  rw [fileExtension, jsLastIndexOfDot, hl]
  exact jsSubstr_neg_one_length (jsToLower name)

/-- No string of length at most one is an allowed extension. -/
theorem short_not_mem_allowedTypes (t : String) (h : t.length ≤ 1) :
    t ∉ allowedTypes := by
  intro hm
  simp [allowedTypes] at hm
  rcases hm with rfl | rfl | rfl <;> exact absurd h (by decide)

/-- C4: for every supplied file, validation fails with the unsupported-type
error exactly when the filename does not contain a dot whose lower-cased
suffix (dot included) is one of `.pdf`, `.doc`, `.docx`; in particular
`resume.PDF` passes the type check while `resume.txt` and the dotless
`resumepdf` are rejected regardless of size. -/
theorem validate_extension_rule : ∀ f : CandidateFile,
    (validateFile (some f) = .invalid "Please upload a PDF, DOC, or DOCX file" ↔
      ¬ SpecExtensionAllowed f.name)
    ∧ validateFile (some { name := "resume.PDF", size := 1024 }) = .valid
    ∧ validateFile (some { name := "resume.txt", size := 1024 }) =
        .invalid "Please upload a PDF, DOC, or DOCX file"
    ∧ validateFile (some { name := "resumepdf", size := 1024 }) =
        .invalid "Please upload a PDF, DOC, or DOCX file" := by
  intro f
  refine ⟨?_, by decide, by decide, by decide⟩
  by_cases hdot : '.' ∈ f.name.toList
  · have he := fileExtension_of_dot f.name hdot
    by_cases hmem : fileExtension f.name ∈ allowedTypes
    · have hspec : SpecExtensionAllowed f.name := ⟨hdot, he ▸ hmem⟩
      simp only [validateFile, if_pos hmem]
      constructor
      · intro hv
        split at hv <;> simp_all
      · intro hns
        exact absurd hspec hns
    · have hspec : ¬ SpecExtensionAllowed f.name := by
        intro hs
        exact hmem (he ▸ hs.2)
      simp [validateFile, hmem, hspec]
  · have hshort := fileExtension_short_of_no_dot f.name hdot
    have hmem : fileExtension f.name ∉ allowedTypes :=
      short_not_mem_allowedTypes _ hshort
    have hspec : ¬ SpecExtensionAllowed f.name := fun hs => hdot hs.1
    simp [validateFile, hmem, hspec]

/-- C5: for a file whose extension passes the type check, validation fails
with the size error exactly when the byte size exceeds 10485760; a file of
exactly 10485760 bytes is accepted. -/
theorem validate_size_rule : ∀ f : CandidateFile,
    fileExtension f.name ∈ allowedTypes →
    ((validateFile (some f) = .invalid "File size must be less than 10MB" ↔
        10485760 < f.size)
      ∧ (validateFile (some f) = .valid ↔ f.size ≤ 10485760)) := by
  intro f h
  have e : (10 : Nat) * 1024 * 1024 = 10485760 := by norm_num
  simp only [validateFile, if_pos h, gt_iff_lt, e]
  by_cases hs : 10485760 < f.size
  · simp [hs]
  · simp [hs]
    omega

/-- Witness for C5 at the two boundary sizes. -/
theorem validate_size_rule_witness :
    validateFile (some { name := "resume.pdf", size := 10485761 })
      = .invalid "File size must be less than 10MB"
    ∧ validateFile (some { name := "resume.pdf", size := 10485760 }) = .valid :=
  ⟨(validate_size_rule { name := "resume.pdf", size := 10485761 } (by decide)).1.mpr
      (by norm_num),
    (validate_size_rule { name := "resume.pdf", size := 10485760 } (by decide)).2.mpr
      (by norm_num)⟩

/-- C1: while an upload is in flight the Upload Resume button is disabled,
so a click fires no transport call; two clicks in rapid succession from a
staged, idle state issue exactly one transport invocation. -/
theorem single_flight_upload : ∀ s : UploadState,
    (s.uploading = true → uploadClick s = (s, false))
    ∧ (s.file.isSome = true → s.uploading = false → (clickTwice s).2 = 1) := by
  intro s
  constructor
  · intro h
    have hd : uploadButtonDisabled s = true := by
      simp [uploadButtonDisabled, h]
    simp [uploadClick, hd]
  · intro hf hu
    obtain ⟨f, hf2⟩ := Option.isSome_iff_exists.mp hf
    simp [clickTwice, uploadClick, uploadButtonDisabled, handleUploadStart, hf2, hu]

/-- Witness for C1: a click while uploading is a no-op, and a double click
from a staged idle state invokes the transport once. -/
theorem single_flight_upload_witness :
    uploadClick stagedUploadingState = (stagedUploadingState, false)
    ∧ (clickTwice stagedIdleState).2 = 1 :=
  ⟨(single_flight_upload _).1 rfl, (single_flight_upload _).2 (by decide) rfl⟩

/-- C10: whenever the pending upload request settles, successfully or not,
the `finally` block clears the uploading flag, so the button is disabled
afterwards only for the lack of a staged file. -/
theorem resolve_clears_uploading :
    ∀ (s : UploadState) (outcome : Except JsError UploadData),
    (handleUploadResolve s outcome).uploading = false
    ∧ uploadButtonDisabled (handleUploadResolve s outcome)
        = (handleUploadResolve s outcome).file.isNone := by
  intro s o
  cases o <;> simp [handleUploadResolve, uploadButtonDisabled]

/-- C8: a failed submit keeps the staged file, clears the uploading flag,
stores the reason derived with the detail/message/fallback priority, and a
retry click reaches the transport again; the priority clauses of
`errorReason` are stated explicitly. -/
theorem failed_submit_preserves_file :
    ∀ (s : UploadState) (f : CandidateFile) (e : JsError),
    s.file = some f →
    ((handleUploadResolve s (.error e)).file = some f
      ∧ (handleUploadResolve s (.error e)).uploading = false
      ∧ (handleUploadResolve s (.error e)).error = some (errorReason e)
      ∧ (uploadClick (handleUploadResolve s (.error e))).2 = true)
    ∧ (∀ d, e.responseDetail = some d → d ≠ "" → errorReason e = d)
    ∧ (∀ m, (e.responseDetail = none ∨ e.responseDetail = some "") →
        e.message = some m → m ≠ "" → errorReason e = m)
    ∧ ((e.responseDetail = none ∨ e.responseDetail = some "") →
        (e.message = none ∨ e.message = some "") →
        errorReason e = "Something went wrong") := by
  intro s f e hf
  refine ⟨?_, ?_, ?_, ?_⟩
  · simp [handleUploadResolve, uploadClick, uploadButtonDisabled, handleUploadStart, hf]
  · intro d hd hne
    simp [errorReason, jsOrStr, hd, hne]
  · intro m hd hm hne
    rcases hd with hd | hd <;> simp [errorReason, jsOrStr, hd, hm, hne]
  · intro hd hm
    rcases hd with hd | hd <;> rcases hm with hm | hm <;>
      simp [errorReason, jsOrStr, hd, hm]

/-- Witness for C8: a failure with an empty structured detail falls back to
the transport message, and the staged file survives. -/
theorem failed_submit_preserves_file_witness :
    (handleUploadResolve stagedUploadingState (.error sampleError)).file = some sampleFile
    ∧ errorReason sampleError = "net down" :=
  have h := failed_submit_preserves_file stagedUploadingState sampleFile sampleError rfl
  ⟨h.1.1, h.2.2.1 "net down" (Or.inr rfl) rfl (by decide)⟩

/-- C7 counterexample: selecting an invalid candidate while a valid file is
already staged records the validation error but leaves the previously
staged file staged, contradicting the claim that the state is left with no
file staged. -/
theorem select_invalid_keeps_staged_file :
    (handleFileSelect stagedIdleState (some sampleTxtFile)).file = some sampleFile
    ∧ (handleFileSelect stagedIdleState (some sampleTxtFile)).error
      = some "Please upload a PDF, DOC, or DOCX file" := by decide

/-- C7 amended: on failed validation the error is stored and the rest of the
state — including any previously staged file — is unchanged; on success the
new file is staged and prior error and result are cleared. -/
theorem select_file_validation_gate :
    ∀ (s : UploadState) (c : Option CandidateFile),
    (∀ er, validateFile c = .invalid er →
      handleFileSelect s c = { s with error := some er })
    ∧ (validateFile c = .valid →
      handleFileSelect s c = { s with file := c, error := none, result := none }) := by
  intro s c
  constructor
  · intro er h
    simp [handleFileSelect, h]
  · intro h
    simp [handleFileSelect, h]

/-- Witness for C7 amended: an invalid selection from the empty state only
records the error. -/
theorem select_file_validation_gate_witness :
    handleFileSelect emptyIdleState (some sampleTxtFile)
      = { emptyIdleState with error := some "Please upload a PDF, DOC, or DOCX file" } :=
  (select_file_validation_gate _ _).1 "Please upload a PDF, DOC, or DOCX file" (by decide)

/-- C3: when the upload succeeds but the `uploaded_resume` status update
fails, the staged file stays cleared, the upload-failure presentation stays
untouched, the failure is logged on the distinct console channel, the
transition is attempted exactly once, and no refetch happens. -/
theorem sync_failure_distinct :
    ∀ (a : AppState) (data : UploadData) (e : JsError)
      (refetch : Except JsError (Option String)),
    a.upload.error = none →
    (handleUploadResolveApp a (.ok data) (.error e) refetch).upload.file = none
    ∧ (handleUploadResolveApp a (.ok data) (.error e) refetch).upload.error = none
    ∧ (handleUploadResolveApp a (.ok data) (.error e) refetch).upload.uploading = false
    ∧ (handleUploadResolveApp a (.ok data) (.error e) refetch).dash.consoleLog
        = a.dash.consoleLog ++ ["Failed to update status:"]
    ∧ (handleUploadResolveApp a (.ok data) (.error e) refetch).dash.updateStatusCalls
        = a.dash.updateStatusCalls + 1
    ∧ (handleUploadResolveApp a (.ok data) (.error e) refetch).dash.fetchUserCalls
        = a.dash.fetchUserCalls
    ∧ (handleUploadResolveApp a (.ok data) (.error e) refetch).dash.showResumeUpload
        = a.dash.showResumeUpload := by
  intro a data e refetch h
  simp [handleUploadResolveApp, handleResumeUploadSuccess, h]

/-- Witness for C3 at a concrete post-upload state and failing transition. -/
theorem sync_failure_distinct_witness :
    (handleUploadResolveApp sampleApp (.ok sampleData) (.error sampleError)
      (.ok (some "registered"))).dash.consoleLog = ["Failed to update status:"] :=
  have h := sync_failure_distinct sampleApp sampleData sampleError
    (.ok (some "registered")) rfl
  h.2.2.2.1

/-- The resume-upload panel is shown after a fresh load exactly when the
fetched status is falsy or `'registered'`. -/
theorem resolveDisplay_showResumeUpload (status : Option String) :
    (resolveDisplay status).showResumeUpload =
      (jsStrFalsy status || status == some "registered") := by
  by_cases h : (jsStrFalsy status || status == some "registered") = true <;>
    simp [resolveDisplay, fetchUserData, initialDashboard, h]

/-- The step shown after a fresh load is the pure step-index function. -/
theorem resolveDisplay_currentStep (status : Option String) :
    (resolveDisplay status).currentStep = currentStepIndex status := by
  by_cases h : (jsStrFalsy status || status == some "registered") = true <;>
    simp [resolveDisplay, fetchUserData, initialDashboard, h]

/-- C2 counterexample: the unrecognized status `'banana'` resolves to step
index 0, yet the upload call-to-action is not surfaced, so the call-to-
action is not equivalent to `stepIndex == 0`. -/
theorem upload_cta_missing_for_unknown_status :
    (resolveDisplay (some "banana")).currentStep = 0
    ∧ (resolveDisplay (some "banana")).showResumeUpload = false := by decide

/-- C2 amended: the upload call-to-action is surfaced exactly when the
status is absent, empty, or `'registered'`; whenever it is surfaced the
resolved step index is 0 (but not conversely). -/
theorem upload_cta_iff_registered_or_absent : ∀ status : Option String,
    ((resolveDisplay status).showResumeUpload = true ↔
      status = none ∨ status = some "" ∨ status = some "registered")
    ∧ ((resolveDisplay status).showResumeUpload = true →
      (resolveDisplay status).currentStep = 0) := by
  intro status
  have hshow := resolveDisplay_showResumeUpload status
  have hstep := resolveDisplay_currentStep status
  have hiff : (resolveDisplay status).showResumeUpload = true ↔
      status = none ∨ status = some "" ∨ status = some "registered" := by
    rw [hshow]
    cases status with
    | none => simp [jsStrFalsy]
    | some s => simp [jsStrFalsy]
  refine ⟨hiff, fun h => ?_⟩
  rw [hstep]
  rcases hiff.mp h with rfl | rfl | rfl <;> decide

/-- Witness for C2 amended at the `'registered'` status. -/
theorem upload_cta_iff_registered_or_absent_witness :
    (resolveDisplay (some "registered")).showResumeUpload = true
    ∧ (resolveDisplay (some "registered")).currentStep = 0 :=
  have h := upload_cta_iff_registered_or_absent (some "registered")
  have hs : (resolveDisplay (some "registered")).showResumeUpload = true :=
    h.1.mpr (Or.inr (Or.inr rfl))
  ⟨hs, h.2 hs⟩

/-- C6: any status outside the six-element enumeration resolves to step
index 0, the absent status resolves to 0, and each enumerated status
resolves to its rank. -/
theorem status_step_mapping :
    (∀ st : String,
      st ∉ ["registered", "uploaded_resume", "scheduled_intake",
        "completed_assessment", "uploaded_results", "completed_onboarding"] →
      currentStepIndex (some st) = 0)
    ∧ currentStepIndex none = 0
    ∧ currentStepIndex (some "registered") = 0
    ∧ currentStepIndex (some "uploaded_resume") = 1
    ∧ currentStepIndex (some "scheduled_intake") = 2
    ∧ currentStepIndex (some "completed_assessment") = 3
    ∧ currentStepIndex (some "uploaded_results") = 4
    ∧ currentStepIndex (some "completed_onboarding") = 5 := by
  refine ⟨?_, by decide, by decide, by decide, by decide, by decide, by decide, by decide⟩
  intro st h
  simp at h
  obtain ⟨h1, h2, h3, h4, h5, h6⟩ := h
  simp [currentStepIndex, statusToStepMap, jsOrNat, h1, h2, h3, h4, h5, h6]

/-- Witness for C6 at an out-of-enumeration status. -/
theorem status_step_mapping_witness : currentStepIndex (some "banana") = 0 :=
  status_step_mapping.1 "banana" (by decide)

/-- C9: the stepper's step-local action lookup is exactly the hardcoded
table — schedule-call link at step 1, assessment link at step 2, upload-
results action at step 3, follow-up link at step 4, nothing at steps 0 and
5 — and `completed_onboarding` is complete with no visible step action. -/
theorem step_action_lookup :
    renderedStepActions 1
      = [StepAction.link "Schedule Call" "https://calendly.com/your-link"]
    ∧ renderedStepActions 2
      = [StepAction.link "Take Assessment" "https://www.gallup.com/cliftonstrengths"]
    ∧ renderedStepActions 3 = [StepAction.action "Upload Results"]
    ∧ renderedStepActions 4
      = [StepAction.link "Schedule Follow-up" "https://calendly.com/your-link"]
    ∧ renderedStepActions 0 = []
    ∧ renderedStepActions 5 = []
    ∧ isOnboardingComplete (some "completed_onboarding") = true
    ∧ currentStepIndex (some "completed_onboarding") = 5
    ∧ visibleStepActions (some "completed_onboarding") = [] := by decide

end Fetch
